import Mathlib

/-!
Verification development for the water-pump temperature analysis core
(`water_pump_analyzer.py` and the aggregation loop of
`chatbot_implementation.py`).

Modelling conventions:
- Sensor values are embedded as exact rationals (`ℚ`); the source uses
  `float64`.  Timestamps are dropped: no verified property mentions them,
  and the analyzer only copies them through.
- The only non-rational quantity in the source is `std = sqrt(variance)`
  (from `np.std`).  The embedding stores `std_sq`, the square of the
  source `std` (the population variance), and the classifiers that read
  `std` through the pipeline are embedded with the equivalent squared
  thresholds; bridging lemmas (`analyze_stability_sq_spec`,
  `variability_sq_spec`) prove the squared form agrees with the direct
  embedding of the source comparisons for every nonnegative `std`.
- Korean display strings are kept verbatim from the source; the enum
  types carry the English names used by the specification, and `display`
  functions fix the correspondence.
- Python failure modes are embedded as `Except` errors:
  `range(0, n, 0)` raising `ValueError` becomes
  `PyError.value_error_zero_step`; the `KeyError` raised by
  `trend_counts[result['trend']]` on the missing `"불충분"` key becomes
  `AggError.key_error_insufficient_trend`; `max([])` raising
  `ValueError` becomes `AggError.value_error_empty_max`.
-/

/-- Trend classification returned by `WaterPumpAnalyzer._analyze_trend`:
Rising `"상승"`, Falling `"하강"`, Plateau `"평형"`, Insufficient `"불충분"`. -/
inductive Trend where
  | rising
  | falling
  | plateau
  | insufficient
deriving DecidableEq, Repr

/-- Korean display string of a trend, exactly as returned by the source. -/
def Trend.display : Trend → String
  | .rising => "상승"
  | .falling => "하강"
  | .plateau => "평형"
  | .insufficient => "불충분"

/-- Stability classification returned by `WaterPumpAnalyzer._analyze_stability`:
VeryStable `"매우안정"`, Stable `"안정"`, Moderate `"보통"`, Unstable `"불안정"`. -/
inductive Stability where
  | very_stable
  | stable
  | moderate
  | unstable
deriving DecidableEq, Repr

/-- Korean display string of a stability class, as in the source. -/
def Stability.display : Stability → String
  | .very_stable => "매우안정"
  | .stable => "안정"
  | .moderate => "보통"
  | .unstable => "불안정"

/-- Alert level returned by `WaterPumpAnalyzer._determine_alert_level`:
Normal `"정상"`, Watch `"관찰"`, Caution `"주의"`, Critical `"위험"`. -/
inductive AlertLevel where
  | normal
  | watch
  | caution
  | critical
deriving DecidableEq, Repr

/-- Korean display string of an alert level, as in the source. -/
def AlertLevel.display : AlertLevel → String
  | .normal => "정상"
  | .watch => "관찰"
  | .caution => "주의"
  | .critical => "위험"

/-- Temperature band of the first component of the composite label:
Low `"저온"`, Normal `"정상"`, High `"고온"`, Overheat `"과열"`. -/
inductive TempCategory where
  | low
  | normal
  | high
  | overheat
deriving DecidableEq, Repr

/-- Korean display string of a temperature band, as in the source. -/
def TempCategory.display : TempCategory → String
  | .low => "저온"
  | .normal => "정상"
  | .high => "고온"
  | .overheat => "과열"

/-- Variability band of the second component of the composite label:
Stable `"안정"`, Moderate `"보통"`, Unstable `"불안정"`. -/
inductive Variability where
  | stable
  | moderate
  | unstable
deriving DecidableEq, Repr

/-- Korean display string of a variability band, as in the source. -/
def Variability.display : Variability → String
  | .stable => "안정"
  | .moderate => "보통"
  | .unstable => "불안정"

/-- Range band of the third component of the composite label:
Constant `"일정"`, Variable `"변동"` (constructor `varying`), Volatile `"급변"`. -/
inductive RangeCategory where
  | constant
  | varying
  | volatile
deriving DecidableEq, Repr

/-- Korean display string of a range band, as in the source. -/
def RangeCategory.display : RangeCategory → String
  | .constant => "일정"
  | .varying => "변동"
  | .volatile => "급변"

/-- Minimum of a list of values, embedding `np.min` / Python `min` over a
nonempty sequence (0 on the empty list, where the source would raise). -/
def list_min : List ℚ → ℚ
  | [] => 0
  | x :: t => t.foldl min x

/-- Maximum of a list of values, embedding `np.max` / Python `max` over a
nonempty sequence (0 on the empty list, where the source would raise). -/
def list_max : List ℚ → ℚ
  | [] => 0
  | x :: t => t.foldl max x

/-- Arithmetic mean of a list of values, embedding `np.mean`
(0 on the empty list, where `np.mean` returns NaN). -/
def np_mean (vals : List ℚ) : ℚ := vals.sum / (vals.length : ℚ)

/-- Median of a list of values, embedding `np.median`: sort ascending, take
the middle element for odd length, the mean of the two middle elements for
even length. -/
def np_median (vals : List ℚ) : ℚ :=
  if vals.length % 2 = 1 then
    (List.insertionSort (· ≤ ·) vals).getD (vals.length / 2) 0
  else
    ((List.insertionSort (· ≤ ·) vals).getD (vals.length / 2 - 1) 0
      + (List.insertionSort (· ≤ ·) vals).getD (vals.length / 2) 0) / 2

/-- Square of the value computed by `np.std`: the mean of the squared
deviations from the mean, i.e. the population variance (divisor `N`).
The source stores `std = sqrt` of this quantity. -/
def np_var (vals : List ℚ) : ℚ :=
  (vals.map fun x => (x - np_mean vals) ^ 2).sum / (vals.length : ℚ)

/-- Modelled from the spec: the square of the population standard deviation,
sum of squared deviations divided by `N`. -/
def pop_variance (vals : List ℚ) : ℚ :=
  (vals.map fun x => (x - np_mean vals) ^ 2).sum / (vals.length : ℚ)

/-- Modelled from the spec: the square of the sample standard deviation that
the spec rules out, sum of squared deviations divided by `N - 1`. -/
def sample_variance (vals : List ℚ) : ℚ :=
  (vals.map fun x => (x - np_mean vals) ^ 2).sum / ((vals.length : ℚ) - 1)

/-- Per-batch descriptive statistics (the `statistics` dict of the source).
The field `std_sq` holds the square of the source field `std`; see the
file comment. -/
structure BatchStatistics where
  mean : ℚ
  median : ℚ
  std_sq : ℚ
  min : ℚ
  max : ℚ
  range : ℚ
deriving DecidableEq, Repr

/-- Statistics block built in `analyze_temperature_characteristics`
(lines 83 to 90 of `water_pump_analyzer.py`). -/
def compute_statistics (vals : List ℚ) : BatchStatistics :=
  { mean := np_mean vals
    median := np_median vals
    std_sq := np_var vals
    min := list_min vals
    max := list_max vals
    range := list_max vals - list_min vals }

/-- Composite label of `WaterPumpAnalyzer._generate_temperature_label`, a
direct embedding: three independent threshold ladders on `mean`, `std` and
`range`, joined by underscores. -/
def generate_temperature_label (mean_temp std_temp temp_range : ℚ) : String :=
  (if mean_temp < 40 then "저온"
   else if mean_temp < 70 then "정상"
   else if mean_temp < 85 then "고온"
   else "과열")
  ++ "_" ++
  (if std_temp < 2 then "안정"
   else if std_temp < 5 then "보통"
   else "불안정")
  ++ "_" ++
  (if temp_range < 5 then "일정"
   else if temp_range < 15 then "변동"
   else "급변")

/-- Temperature ladder of the label generator as an enum (spec names). -/
def temp_category (mean_temp : ℚ) : TempCategory :=
  if mean_temp < 40 then .low
  else if mean_temp < 70 then .normal
  else if mean_temp < 85 then .high
  else .overheat

/-- Variability ladder of the label generator as an enum (spec names). -/
def variability_band (std_temp : ℚ) : Variability :=
  if std_temp < 2 then .stable
  else if std_temp < 5 then .moderate
  else .unstable

/-- Variability ladder expressed on the square of `std`; agrees with
`variability_band std` for every `std ≥ 0` (see `variability_sq_spec`). -/
def variability_band_sq (std_sq : ℚ) : Variability :=
  if std_sq < 4 then .stable
  else if std_sq < 25 then .moderate
  else .unstable

/-- Range ladder of the label generator as an enum (spec names). -/
def range_category (temp_range : ℚ) : RangeCategory :=
  if temp_range < 5 then .constant
  else if temp_range < 15 then .varying
  else .volatile

/-- Label generator used inside the pipeline, reading `std_sq` instead of
the irrational `std`; equal to `generate_temperature_label` on `std ≥ 0`
by `generate_temperature_label_sq_spec`. -/
def generate_temperature_label_sq (mean_temp std_sq temp_range : ℚ) : String :=
  (temp_category mean_temp).display ++ "_"
    ++ (variability_band_sq std_sq).display ++ "_"
    ++ (range_category temp_range).display

/-- Least-squares slope of `np.polyfit(arange(n), vals, 1)`: the closed-form
degree-1 least-squares coefficient over the index sequence `0..n-1`. -/
def polyfit_slope (vals : List ℚ) : ℚ :=
  let n : ℚ := vals.length
  let sx := ∑ i in Finset.range vals.length, (i : ℚ)
  let sxx := ∑ i in Finset.range vals.length, (i : ℚ) ^ 2
  let sy := ∑ i in Finset.range vals.length, vals.getD i 0
  let sxy := ∑ i in Finset.range vals.length, (i : ℚ) * vals.getD i 0
  (n * sxy - sx * sy) / (n * sxx - sx ^ 2)

/-- Intercept paired with `polyfit_slope` by the degree-1 least-squares fit. -/
def polyfit_intercept (vals : List ℚ) : ℚ :=
  ((∑ i in Finset.range vals.length, vals.getD i 0)
      - polyfit_slope vals * ∑ i in Finset.range vals.length, (i : ℚ))
    / (vals.length : ℚ)

/-- Trend classifier `WaterPumpAnalyzer._analyze_trend`: fewer than 2 samples
gives Insufficient, otherwise the fitted slope is compared with 0.1. -/
def analyze_trend (vals : List ℚ) : Trend :=
  if vals.length < 2 then .insufficient
  else if polyfit_slope vals > 1/10 then .rising
  else if polyfit_slope vals < -(1/10) then .falling
  else .plateau

/-- Stability classifier `WaterPumpAnalyzer._analyze_stability`, direct
embedding: `cv = std / mean` when `mean > 0`, else `cv = 0`, then banded. -/
def analyze_stability (std_v mean_v : ℚ) : Stability :=
  let cv := if mean_v > 0 then std_v / mean_v else 0
  if cv < 1/20 then .very_stable
  else if cv < 1/10 then .stable
  else if cv < 1/5 then .moderate
  else .unstable

/-- Stability classifier expressed on the square of `std`; agrees with
`analyze_stability std mean` for every `std ≥ 0`
(see `analyze_stability_sq_spec`). -/
def analyze_stability_sq (std_sq mean_v : ℚ) : Stability :=
  if mean_v > 0 then
    if 400 * std_sq < mean_v ^ 2 then .very_stable
    else if 100 * std_sq < mean_v ^ 2 then .stable
    else if 25 * std_sq < mean_v ^ 2 then .moderate
    else .unstable
  else .very_stable

/-- Alert classifier `WaterPumpAnalyzer._determine_alert_level`: a strict
severity ladder on `max` and `mean`, first match wins. -/
def determine_alert_level (mean_temp max_temp : ℚ) : AlertLevel :=
  if max_temp > 90 ∨ mean_temp > 85 then .critical
  else if max_temp > 80 ∨ mean_temp > 75 then .caution
  else if max_temp > 70 ∨ mean_temp > 65 then .watch
  else .normal

/-- One per-batch analysis record, the dict appended to `analyzed_data`
(timestamps dropped, `raw_data` kept as `values`). -/
structure BatchAnalysis where
  batch_id : ℕ
  record_count : ℕ
  values : List ℚ
  statistics : BatchStatistics
  value_label : String
  trend : Trend
  stability : Stability
  alert_level : AlertLevel
deriving DecidableEq, Repr

/-- Builds the analysis record of one window, as the loop body of
`analyze_temperature_characteristics` does. -/
def mk_batch_analysis (id : ℕ) (vals : List ℚ) : BatchAnalysis :=
  let st := compute_statistics vals
  { batch_id := id
    record_count := vals.length
    values := vals
    statistics := st
    value_label := generate_temperature_label_sq st.mean st.std_sq st.range
    trend := analyze_trend vals
    stability := analyze_stability_sq st.std_sq st.mean
    alert_level := determine_alert_level st.mean st.max }

/-- Fuel-indexed segmentation loop: at running sample index `i`, emit the
window `rest[0:w]` with `batch_id = i / w + 1` (the source computes
`i // window_size + 1`) and continue at `i + w` on `rest[w:]`.  The fuel is
an upper bound on the remaining length and makes the recursion structural;
`segment` instantiates it with the list length, which always suffices for
`w > 0`. -/
def segment_go (w : ℕ) : ℕ → ℕ → List ℚ → List (ℕ × List ℚ)
  | 0, _, _ => []
  | _, _, [] => []
  | fuel + 1, i, x :: rest =>
    (i / w + 1, (x :: rest).take w) :: segment_go w fuel (i + w) ((x :: rest).drop w)

/-- Segmentation of `analyze_temperature_characteristics`: the windows
`data[i:i+w]` for `i = 0, w, 2w, ...` paired with their batch ids. -/
def segment_windows (w : ℕ) (data : List ℚ) : List (ℕ × List ℚ) :=
  segment_go w data.length 0 data

/-- Failure mode of the analysis call: `range(0, n, 0)` raises `ValueError`
when `window_size` is zero. -/
inductive PyError where
  | value_error_zero_step
deriving DecidableEq, Repr

/-- Whole analysis call `analyze_temperature_characteristics(window_size)`:
with a zero window the Python `range` raises; with a negative window
`range(0, n, negative)` is empty, so the loop body never runs and the
result is the empty list; otherwise every window is analyzed in order. -/
def analyze_temperature_characteristics (window_size : ℤ) (data : List ℚ) :
    Except PyError (List BatchAnalysis) :=
  if window_size = 0 then .error .value_error_zero_step
  else if window_size < 0 then .ok []
  else .ok ((segment_windows window_size.toNat data).map fun p => mk_batch_analysis p.1 p.2)

/-- Failure modes of the aggregation loop `WaterPumpChatbot.analyze_data`:
the `trend_counts` dict lacks the key `"불충분"`, so a batch with trend
Insufficient raises `KeyError`; after the loop, `max([])` over an empty
result list raises `ValueError`. -/
inductive AggError where
  | key_error_insufficient_trend
  | value_error_empty_max
deriving DecidableEq, Repr

/-- Run-level summary, the `analysis_cache` dict of the source.  The count
dicts are flattened into one field per key; `trend_counts` has exactly the
three keys of the source dict (`"상승"`, `"하강"`, `"평형"`).
The `analysis_period` timestamps are dropped with the rest of the
timestamp plumbing. -/
structure RunSummary where
  total_batches : ℕ
  avg_temperature : ℚ
  max_temperature : ℚ
  min_temperature : ℚ
  alert_normal : ℕ
  alert_watch : ℕ
  alert_caution : ℕ
  alert_critical : ℕ
  trend_rising : ℕ
  trend_falling : ℕ
  trend_plateau : ℕ
  stability_very_stable : ℕ
  stability_stable : ℕ
  stability_moderate : ℕ
  stability_unstable : ℕ
  critical_batches : List BatchAnalysis
deriving DecidableEq, Repr

/-- The summary record built by `analyze_data` once the counting loop has
finished: `avg_temperature` is `np.mean` of the per-batch means,
`max_temperature` and `min_temperature` are extrema of per-batch extrema,
the counts count category members, and `critical_batches` keeps the
batches whose alert level is in `["위험", "주의"]`, in original order. -/
def mk_run_summary (results : List BatchAnalysis) : RunSummary :=
  { total_batches := results.length
    avg_temperature := (results.map fun r => r.statistics.mean).sum / (results.length : ℚ)
    max_temperature := list_max (results.map fun r => r.statistics.max)
    min_temperature := list_min (results.map fun r => r.statistics.min)
    alert_normal := results.countP fun r => decide (r.alert_level = AlertLevel.normal)
    alert_watch := results.countP fun r => decide (r.alert_level = AlertLevel.watch)
    alert_caution := results.countP fun r => decide (r.alert_level = AlertLevel.caution)
    alert_critical := results.countP fun r => decide (r.alert_level = AlertLevel.critical)
    trend_rising := results.countP fun r => decide (r.trend = Trend.rising)
    trend_falling := results.countP fun r => decide (r.trend = Trend.falling)
    trend_plateau := results.countP fun r => decide (r.trend = Trend.plateau)
    stability_very_stable := results.countP fun r => decide (r.stability = Stability.very_stable)
    stability_stable := results.countP fun r => decide (r.stability = Stability.stable)
    stability_moderate := results.countP fun r => decide (r.stability = Stability.moderate)
    stability_unstable := results.countP fun r => decide (r.stability = Stability.unstable)
    critical_batches := results.filter fun r =>
      decide (r.alert_level = AlertLevel.critical ∨ r.alert_level = AlertLevel.caution) }

/-- Aggregation call `WaterPumpChatbot.analyze_data` over the list of batch
results.  The counting loop runs first: it raises the `KeyError` on the
first batch whose trend is Insufficient (`trend_counts` has no `"불충분"`
key).  After the loop, on an empty result list, `max` of an empty sequence
raises `ValueError`, so no summary exists for zero batches. -/
def analyze_data (results : List BatchAnalysis) : Except AggError RunSummary :=
  if results.any fun r => decide (r.trend = Trend.insufficient) then
    .error .key_error_insufficient_trend
  else if results.isEmpty then
    .error .value_error_empty_max
  else
    .ok (mk_run_summary results)

/-- Mean of the per-batch means, the quantity the aggregator stores as
`avg_temperature` (one term per batch, each batch weighted equally). -/
def mean_of_batch_means (results : List BatchAnalysis) : ℚ :=
  (results.map fun r => r.statistics.mean).sum / (results.length : ℚ)

/-! Helper lemmas about list extrema and membership. -/

theorem foldl_min_le_init (t : List ℚ) (a : ℚ) : t.foldl min a ≤ a := by
  induction t generalizing a with
  | nil => simp
  | cons x t ih => exact le_trans (ih (min a x)) (min_le_left a x)

theorem foldl_min_le_mem (t : List ℚ) (a y : ℚ) (hy : y ∈ t) : t.foldl min a ≤ y := by
  induction t generalizing a with
  | nil => cases hy
  | cons x t ih =>
    rcases List.mem_cons.mp hy with h | h
    · subst h
      exact le_trans (foldl_min_le_init t (min a y)) (min_le_right a y)
    · exact ih (min a x) h

theorem init_le_foldl_max (t : List ℚ) (a : ℚ) : a ≤ t.foldl max a := by
  induction t generalizing a with
  | nil => simp
  | cons x t ih => exact le_trans (le_max_left a x) (ih (max a x))

theorem mem_le_foldl_max (t : List ℚ) (a y : ℚ) (hy : y ∈ t) : y ≤ t.foldl max a := by
  induction t generalizing a with
  | nil => cases hy
  | cons x t ih =>
    rcases List.mem_cons.mp hy with h | h
    · subst h
      exact le_trans (le_max_right a y) (init_le_foldl_max t (max a y))
    · exact ih (max a x) h

theorem list_min_le_mem (vals : List ℚ) (y : ℚ) (hy : y ∈ vals) : list_min vals ≤ y := by
  cases vals with
  | nil => cases hy
  | cons x t =>
    rcases List.mem_cons.mp hy with h | h
    · subst h
      exact foldl_min_le_init t y
    · exact foldl_min_le_mem t x y h

theorem mem_le_list_max (vals : List ℚ) (y : ℚ) (hy : y ∈ vals) : y ≤ list_max vals := by
  cases vals with
  | nil => cases hy
  | cons x t =>
    rcases List.mem_cons.mp hy with h | h
    · subst h
      exact init_le_foldl_max t y
    · exact mem_le_foldl_max t x y h

theorem getD_mem_of_lt (l : List ℚ) (n : ℕ) (h : n < l.length) : l.getD n 0 ∈ l := by
  induction l generalizing n with
  | nil => simp at h
  | cons x t ih =>
    cases n with
    | zero => simp [List.getD]
    | succ m =>
      have : t.getD m 0 ∈ t := ih m (by simpa using h)
      simpa [List.getD] using Or.inr this

/-! Median bounds. -/

theorem np_median_bounds (vals : List ℚ) (h : vals ≠ []) :
    list_min vals ≤ np_median vals ∧ np_median vals ≤ list_max vals := by
  have hlen : 0 < vals.length := List.length_pos.mpr h
  have hperm := List.perm_insertionSort (· ≤ ·) vals
  have hslen : (List.insertionSort (· ≤ ·) vals).length = vals.length := hperm.length_eq
  have hmem : ∀ n, n < vals.length → (List.insertionSort (· ≤ ·) vals).getD n 0 ∈ vals := by
    intro n hn
    exact hperm.mem_iff.mp (getD_mem_of_lt _ n (by rw [hslen]; exact hn))
  have h2 : vals.length / 2 < vals.length := Nat.div_lt_self hlen (by norm_num)
  have h1 : vals.length / 2 - 1 < vals.length := lt_of_le_of_lt (Nat.sub_le _ _) h2
  have hm2 := hmem _ h2
  have hm1 := hmem _ h1
  have hmin2 := list_min_le_mem vals _ hm2
  have hmax2 := mem_le_list_max vals _ hm2
  have hmin1 := list_min_le_mem vals _ hm1
  have hmax1 := mem_le_list_max vals _ hm1
  unfold np_median
  by_cases hodd : vals.length % 2 = 1
  · rw [if_pos hodd]
    exact ⟨hmin2, hmax2⟩
  · rw [if_neg hodd]
    constructor
    · linarith
    · linarith

/-! Segmentation lemmas. -/

theorem segment_go_nil (w fuel i : ℕ) : segment_go w fuel i [] = [] := by
  cases fuel <;> simp [segment_go]

theorem segment_go_ne_nil (w fuel i : ℕ) (data : List ℚ)
    (hfuel : data.length ≤ fuel) (hne : data ≠ []) :
    segment_go w fuel i data ≠ [] := by
  cases data with
  | nil => exact absurd rfl hne
  | cons x r =>
    cases fuel with
    | zero => simp at hfuel
    | succ f => simp [segment_go]

theorem segment_go_flatten (w : ℕ) (hw : 0 < w) :
    ∀ (fuel i : ℕ) (data : List ℚ), data.length ≤ fuel →
      ((segment_go w fuel i data).map Prod.snd).flatten = data := by
  intro fuel
  induction fuel with
  | zero =>
    intro i data h
    have hnil : data = [] := List.eq_nil_of_length_eq_zero (Nat.le_zero.mp h)
    subst hnil
    simp [segment_go]
  | succ f ih =>
    intro i data h
    cases data with
    | nil => simp [segment_go]
    | cons x r =>
      have hdrop : ((x :: r).drop w).length ≤ f := by
        rw [List.length_drop]
        simp only [List.length_cons] at h ⊢
        omega
      simp only [segment_go, List.map_cons, List.flatten_cons]
      rw [ih (i + w) ((x :: r).drop w) hdrop]
      exact List.take_append_drop w (x :: r)

theorem segment_go_length (w : ℕ) (hw : 0 < w) :
    ∀ (fuel i : ℕ) (data : List ℚ), data.length ≤ fuel → data ≠ [] →
      (segment_go w fuel i data).length = (data.length + w - 1) / w := by
  intro fuel
  induction fuel with
  | zero =>
    intro i data h hne
    exact absurd (List.eq_nil_of_length_eq_zero (Nat.le_zero.mp h)) hne
  | succ f ih =>
    intro i data h hne
    cases data with
    | nil => exact absurd rfl hne
    | cons x r =>
      by_cases hd : (x :: r).drop w = []
      · have hlew : (x :: r).length ≤ w := by
          have := congrArg List.length hd
          rw [List.length_drop] at this
          simp only [List.length_nil] at this
          omega
        simp only [segment_go, hd, segment_go_nil, List.length_cons, List.length_nil]
        have hone : ((x :: r).length + w - 1) / w = 1 := by
          apply Nat.div_eq_of_lt_le
          · simp only [List.length_cons, one_mul]
            omega
          · simp only [List.length_cons] at hlew ⊢
            omega
        simp only [List.length_cons] at hone
        omega
      · have hwlt : w < (x :: r).length := by
          by_contra hcon
          exact hd (List.drop_eq_nil_of_le (by omega))
        have hdroplen : ((x :: r).drop w).length = (x :: r).length - w := List.length_drop _ _
        have hdrop_le : ((x :: r).drop w).length ≤ f := by
          rw [hdroplen]
          simp only [List.length_cons] at h hwlt ⊢
          omega
        have hrec := ih (i + w) ((x :: r).drop w) hdrop_le hd
        rw [hdroplen] at hrec
        simp only [List.length_cons] at hrec hwlt
        simp only [segment_go, List.length_cons, hrec]
        have e1 : r.length + 1 - w + w - 1 = r.length := by omega
        have e2 : r.length + 1 + w - 1 = r.length + w := by omega
        rw [e1, e2, Nat.add_div_right _ hw]

theorem segment_go_ids (w : ℕ) (hw : 0 < w) :
    ∀ (fuel i : ℕ) (data : List ℚ), data.length ≤ fuel →
      (segment_go w fuel i data).map Prod.fst
        = List.range' (i / w + 1) (segment_go w fuel i data).length := by
  intro fuel
  induction fuel with
  | zero =>
    intro i data h
    have hnil : data = [] := List.eq_nil_of_length_eq_zero (Nat.le_zero.mp h)
    subst hnil
    simp [segment_go]
  | succ f ih =>
    intro i data h
    cases data with
    | nil => simp [segment_go]
    | cons x r =>
      have hdrop : ((x :: r).drop w).length ≤ f := by
        rw [List.length_drop]
        simp only [List.length_cons] at h ⊢
        omega
      simp only [segment_go, List.map_cons, List.length_cons]
      rw [ih (i + w) ((x :: r).drop w) hdrop, Nat.add_div_right _ hw, List.range'_succ]

theorem segment_go_window_sizes (w : ℕ) (hw : 0 < w) :
    ∀ (fuel i : ℕ) (data : List ℚ), data.length ≤ fuel →
      ∀ p ∈ segment_go w fuel i data, p.2.length ≤ w ∧ p.2 ≠ [] := by
  intro fuel
  induction fuel with
  | zero =>
    intro i data h
    have hnil : data = [] := List.eq_nil_of_length_eq_zero (Nat.le_zero.mp h)
    subst hnil
    simp [segment_go]
  | succ f ih =>
    intro i data h
    cases data with
    | nil => simp [segment_go]
    | cons x r =>
      have hdrop : ((x :: r).drop w).length ≤ f := by
        rw [List.length_drop]
        simp only [List.length_cons] at h ⊢
        omega
      intro p hp
      simp only [segment_go, List.mem_cons] at hp
      rcases hp with hp | hp
      · subst hp
        constructor
        · simp [List.length_take]
        · cases w with
          | zero => omega
          | succ v => simp [List.take]
      · exact ih (i + w) ((x :: r).drop w) hdrop p hp

theorem segment_go_dropLast_sizes (w : ℕ) (hw : 0 < w) :
    ∀ (fuel i : ℕ) (data : List ℚ), data.length ≤ fuel →
      ∀ p ∈ (segment_go w fuel i data).dropLast, p.2.length = w := by
  intro fuel
  induction fuel with
  | zero =>
    intro i data h
    have hnil : data = [] := List.eq_nil_of_length_eq_zero (Nat.le_zero.mp h)
    subst hnil
    simp [segment_go]
  | succ f ih =>
    intro i data h
    cases data with
    | nil => simp [segment_go]
    | cons x r =>
      have hdrop : ((x :: r).drop w).length ≤ f := by
        rw [List.length_drop]
        simp only [List.length_cons] at h ⊢
        omega
      by_cases hd : (x :: r).drop w = []
      · simp [segment_go, hd, segment_go_nil]
      · have hrest : segment_go w f (i + w) ((x :: r).drop w) ≠ [] :=
          segment_go_ne_nil w f (i + w) _ hdrop hd
        have hwlt : w < (x :: r).length := by
          by_contra hcon
          exact hd (List.drop_eq_nil_of_le (by omega))
        intro p hp
        simp only [segment_go] at hp
        rw [List.dropLast_cons_of_ne_nil hrest] at hp
        rcases List.mem_cons.mp hp with hp | hp
        · subst hp
          simp only [List.length_take]
          omega
        · exact ih (i + w) ((x :: r).drop w) hdrop p hp

theorem segment_go_last_size (w : ℕ) (hw : 0 < w) :
    ∀ (fuel i : ℕ) (data : List ℚ), data.length ≤ fuel → data ≠ [] →
      ∀ p, (segment_go w fuel i data).getLast? = some p →
        p.2.length = if data.length % w = 0 then w else data.length % w := by
  intro fuel
  induction fuel with
  | zero =>
    intro i data h hne
    exact absurd (List.eq_nil_of_length_eq_zero (Nat.le_zero.mp h)) hne
  | succ f ih =>
    intro i data h hne
    cases data with
    | nil => exact absurd rfl hne
    | cons x r =>
      have hdrop : ((x :: r).drop w).length ≤ f := by
        rw [List.length_drop]
        simp only [List.length_cons] at h ⊢
        omega
      by_cases hd : (x :: r).drop w = []
      · have hlew : (x :: r).length ≤ w := by
          have := congrArg List.length hd
          rw [List.length_drop] at this
          simp only [List.length_nil] at this
          omega
        intro p hp
        simp only [segment_go, hd, segment_go_nil, List.getLast?_singleton,
          Option.some.injEq] at hp
        subst hp
        simp only [List.length_take]
        have hpos : 0 < (x :: r).length := by simp
        by_cases heq : (x :: r).length = w
        · rw [heq]
          simp [Nat.mod_self]
        · have hlt : (x :: r).length < w := lt_of_le_of_ne hlew heq
          rw [Nat.mod_eq_of_lt hlt, if_neg (by omega)]
          omega
      · have hrest : segment_go w f (i + w) ((x :: r).drop w) ≠ [] :=
          segment_go_ne_nil w f (i + w) _ hdrop hd
        have hwlt : w < (x :: r).length := by
          by_contra hcon
          exact hd (List.drop_eq_nil_of_le (by omega))
        intro p hp
        simp only [segment_go] at hp
        obtain ⟨q, s, hqs⟩ := List.exists_cons_of_ne_nil hrest
        rw [hqs, List.getLast?_cons_cons] at hp
        have hp2 : (segment_go w f (i + w) ((x :: r).drop w)).getLast? = some p := by
          rw [hqs]
          exact hp
        have hrec := ih (i + w) ((x :: r).drop w) hdrop hd p hp2
        have hmod : ((x :: r).drop w).length % w = (x :: r).length % w := by
          rw [List.length_drop]
          conv_rhs => rw [show (x :: r).length = ((x :: r).length - w) + w by omega]
          rw [Nat.add_mod_right]
        rw [hmod] at hrec
        exact hrec

/-! Aggregator characterization helpers. -/

theorem analyze_data_ok (results : List BatchAnalysis) (hne : results ≠ [])
    (hins : ∀ r ∈ results, r.trend ≠ Trend.insufficient) :
    analyze_data results = .ok (mk_run_summary results) := by
  unfold analyze_data
  have hA : ¬ (results.any fun r => decide (r.trend = Trend.insufficient)) = true := by
    simp only [List.any_eq_true, decide_eq_true_eq, not_exists]
    intro r
    intro hcon
    exact hins r hcon.1 hcon.2
  have hB : ¬ results.isEmpty = true := by
    simpa [List.isEmpty_iff] using hne
  rw [if_neg hA, if_neg hB]

theorem analyze_data_key_error (results : List BatchAnalysis)
    (h : ∃ r ∈ results, r.trend = Trend.insufficient) :
    analyze_data results = .error .key_error_insufficient_trend := by
  unfold analyze_data
  rw [if_pos]
  simp only [List.any_eq_true, decide_eq_true_eq]
  exact h

theorem analyze_data_avg (results : List BatchAnalysis) (s : RunSummary)
    (h : analyze_data results = .ok s) :
    s.avg_temperature = mean_of_batch_means results := by
  unfold analyze_data at h
  split_ifs at h
  injection h with h2
  subst h2
  rfl

/-- C1: for every nonempty sample list and every window size `w > 0`,
segmentation yields exactly `ceil(N/w)` batches; concatenating the windows
in order gives back the sample list (so the batches are consecutive, in
order, and their sizes sum to `N`); every batch except possibly the last
has exactly `w` samples; the last has `N mod w` samples, or `w` when `w`
divides `N`; and the batch ids are `1, 2, 3, ...` in traversal order. -/
theorem c1_segmentation (w : ℕ) (data : List ℚ) (hw : 0 < w) (hd : data ≠ []) :
    (segment_windows w data).length = (data.length + w - 1) / w
    ∧ ((segment_windows w data).map Prod.snd).flatten = data
    ∧ ((segment_windows w data).map fun p => p.2.length).sum = data.length
    ∧ (∀ p ∈ (segment_windows w data).dropLast, p.2.length = w)
    ∧ (∀ p, (segment_windows w data).getLast? = some p →
        p.2.length = if data.length % w = 0 then w else data.length % w)
    ∧ (segment_windows w data).map Prod.fst = List.range' 1 ((data.length + w - 1) / w) := by
  refine ⟨segment_go_length w hw _ 0 data le_rfl hd,
    segment_go_flatten w hw _ 0 data le_rfl, ?_, ?_, ?_, ?_⟩
  · have hflat := segment_go_flatten w hw data.length 0 data le_rfl
    have hlen := congrArg List.length hflat
    rw [List.length_flatten, List.map_map] at hlen
    exact hlen
  · exact fun p hp => segment_go_dropLast_sizes w hw _ 0 data le_rfl p hp
  · exact fun p hp => segment_go_last_size w hw _ 0 data le_rfl hd p hp
  · have hids := segment_go_ids w hw data.length 0 data le_rfl
    rw [segment_go_length w hw _ 0 data le_rfl hd] at hids
    simpa using hids

/-- Witness for C1 at `w = 2` and samples `[1, 2, 3]`: two batches,
`[1, 2]` full and `[3]` of size `3 mod 2 = 1`, ids `[1, 2]`. -/
theorem c1_segmentation_witness :
    (segment_windows 2 [1, 2, 3]).length = 2
    ∧ ((segment_windows 2 [1, 2, 3]).map Prod.snd).flatten = [1, 2, 3]
    ∧ ((segment_windows 2 [1, 2, 3]).map fun p => p.2.length).sum = 3
    ∧ (∀ p ∈ (segment_windows 2 [1, 2, 3]).dropLast, p.2.length = 2)
    ∧ (∀ p, (segment_windows 2 [1, 2, 3]).getLast? = some p →
        p.2.length = if 3 % 2 = 0 then 2 else 3 % 2)
    ∧ (segment_windows 2 [1, 2, 3]).map Prod.fst = List.range' 1 2 :=
  c1_segmentation 2 [1, 2, 3] (by decide) (by decide)

/-- Counterexample to C2: the claim says every `window_size <= 0` makes the
segmentation call fail, but in the source a negative window makes
`range(0, n, window_size)` empty, so the call succeeds and returns an
empty result even on a nonempty sample list.  Here `window_size = -1`
on samples `[50]` returns the empty batch list and no error at all. -/
theorem c2_counterexample :
    analyze_temperature_characteristics (-1) [50] = .ok []
    ∧ (∀ e, analyze_temperature_characteristics (-1) [50] ≠ .error e)
    ∧ ([50] : List ℚ) ≠ [] := by
  refine ⟨?_, ?_, by simp⟩
  · unfold analyze_temperature_characteristics
    rw [if_neg (by omega), if_pos (by omega)]
  · intro e hcon
    unfold analyze_temperature_characteristics at hcon
    rw [if_neg (by omega), if_pos (by omega)] at hcon
    exact Except.noConfusion hcon

/-- C2 amended: only `window_size = 0` makes the call fail (the Python
`range` rejects a zero step), and then no batch list is produced; every
negative `window_size` silently yields the empty batch list; and for any
positive `window_size` the empty sample list yields the empty batch list
with no error. -/
theorem c2_amended :
    (∀ data : List ℚ,
      analyze_temperature_characteristics 0 data = .error .value_error_zero_step)
    ∧ (∀ (wz : ℤ) (data : List ℚ), wz < 0 →
      analyze_temperature_characteristics wz data = .ok [])
    ∧ (∀ wz : ℤ, 0 < wz →
      analyze_temperature_characteristics wz [] = .ok []) := by
  refine ⟨fun data => rfl, ?_, ?_⟩
  · intro wz data hwz
    unfold analyze_temperature_characteristics
    rw [if_neg (by omega), if_pos hwz]
  · intro wz hwz
    unfold analyze_temperature_characteristics
    rw [if_neg (by omega), if_neg (by omega)]
    simp [segment_windows, segment_go]

/-- Witness for C2 amended: `window_size = -2` on a nonempty list succeeds
with the empty result, and `window_size = 5` on the empty list succeeds
with the empty result. -/
theorem c2_amended_witness :
    analyze_temperature_characteristics (-2) [7] = .ok []
    ∧ analyze_temperature_characteristics 5 [] = .ok [] :=
  ⟨c2_amended.2.1 (-2) [7] (by decide), c2_amended.2.2 5 (by decide)⟩

/-- Counterexample to C3: the claim says aggregation succeeds on every
non-empty list of BatchAnalyses, but the `trend_counts` dict in
`analyze_data` has no key for the Insufficient trend `"불충분"`, so a
non-empty list containing such a batch (here: the analysis of the
single-sample batch `[50]`) raises `KeyError` instead of producing a
summary. -/
theorem c3_counterexample :
    ([mk_batch_analysis 1 [50]] : List BatchAnalysis) ≠ []
    ∧ analyze_data [mk_batch_analysis 1 [50]] = .error .key_error_insufficient_trend
    ∧ ∀ s, analyze_data [mk_batch_analysis 1 [50]] ≠ .ok s := by
  have htr : (mk_batch_analysis 1 [50]).trend = Trend.insufficient := rfl
  have hkey : analyze_data [mk_batch_analysis 1 [50]]
      = .error .key_error_insufficient_trend :=
    analyze_data_key_error _ ⟨mk_batch_analysis 1 [50], by simp, htr⟩
  refine ⟨by simp, hkey, ?_⟩
  intro s hcon
  rw [hkey] at hcon
  exact Except.noConfusion hcon

/-- C3 amended: aggregation over the empty batch list fails with the
empty-sequence error (the abstract EmptyRunError, concretely the
`ValueError` of `max([])`); a non-empty list succeeds and produces a
RunSummary provided no batch has trend Insufficient; a list containing a
batch with trend Insufficient fails with the `KeyError` of the missing
`"불충분"` key instead. -/
theorem c3_amended :
    analyze_data [] = .error .value_error_empty_max
    ∧ (∀ results : List BatchAnalysis, results ≠ [] →
        (∀ r ∈ results, r.trend ≠ Trend.insufficient) →
          analyze_data results = .ok (mk_run_summary results))
    ∧ (∀ results : List BatchAnalysis,
        (∃ r ∈ results, r.trend = Trend.insufficient) →
          analyze_data results = .error .key_error_insufficient_trend) :=
  ⟨rfl, fun rs hne hins => analyze_data_ok rs hne hins,
    fun rs h => analyze_data_key_error rs h⟩

/-- Witness for C3 amended: the singleton list holding the analysis of the
two-sample batch `[10, 20]` (trend Rising, not Insufficient) aggregates
successfully. -/
theorem c3_amended_witness :
    analyze_data [mk_batch_analysis 1 [10, 20]]
      = .ok (mk_run_summary [mk_batch_analysis 1 [10, 20]]) :=
  c3_amended.2.1 [mk_batch_analysis 1 [10, 20]] (by simp)
    (by
      intro r hr
      rw [List.mem_singleton] at hr
      subst hr
      show analyze_trend [10, 20] ≠ Trend.insufficient
      unfold analyze_trend polyfit_slope
      norm_num [Finset.sum_range_succ]
      decide)

/-- C4 is a code bug: the aggregation loop is not total on well-formed
batch analyses.  End to end, 1 sample with the default window 100 yields
one batch whose trend is Insufficient (`"불충분"`), and aggregating that
output raises `KeyError` because `trend_counts` enumerates only
`"상승"`, `"하강"`, `"평형"` — while the claim (and the spec) say the
counts are computed and aggregation does not raise. -/
theorem c4_insufficient_trend_key_bug :
    analyze_temperature_characteristics 100 [55] = .ok [mk_batch_analysis 1 [55]]
    ∧ (mk_batch_analysis 1 [55]).trend = Trend.insufficient
    ∧ analyze_data [mk_batch_analysis 1 [55]] = .error .key_error_insufficient_trend :=
  ⟨rfl, rfl, analyze_data_key_error _ ⟨mk_batch_analysis 1 [55], by simp, rfl⟩⟩

/-! Projection helpers for pipeline batch records. -/

theorem mk_batch_analysis_mean (i : ℕ) (vals : List ℚ) :
    (mk_batch_analysis i vals).statistics.mean = np_mean vals := rfl

theorem mk_batch_analysis_trend (i : ℕ) (vals : List ℚ) :
    (mk_batch_analysis i vals).trend = analyze_trend vals := rfl

/-- C5: the alert classifier evaluates its ladder in strict severity order
with first match winning, reading both `max` and `mean`: each level is hit
exactly when its guard holds and no stricter guard does.  In particular a
batch with `mean = 86, max = 70` is Critical (mean rule fires though max
does not), and a batch with `mean = 60, max = 95` is Critical (max rule
fires). -/
theorem c5_alert_ladder :
    (∀ mean_temp max_temp : ℚ,
      (determine_alert_level mean_temp max_temp = .critical
        ↔ (max_temp > 90 ∨ mean_temp > 85))
      ∧ (determine_alert_level mean_temp max_temp = .caution
        ↔ (¬(max_temp > 90 ∨ mean_temp > 85) ∧ (max_temp > 80 ∨ mean_temp > 75)))
      ∧ (determine_alert_level mean_temp max_temp = .watch
        ↔ (¬(max_temp > 90 ∨ mean_temp > 85) ∧ ¬(max_temp > 80 ∨ mean_temp > 75)
            ∧ (max_temp > 70 ∨ mean_temp > 65)))
      ∧ (determine_alert_level mean_temp max_temp = .normal
        ↔ (¬(max_temp > 90 ∨ mean_temp > 85) ∧ ¬(max_temp > 80 ∨ mean_temp > 75)
            ∧ ¬(max_temp > 70 ∨ mean_temp > 65))))
    ∧ determine_alert_level 86 70 = .critical
    ∧ determine_alert_level 60 95 = .critical := by
  refine ⟨?_, ?_, ?_⟩
  · intro m M
    unfold determine_alert_level
    split_ifs with h1 h2 h3 <;> simp_all
  · unfold determine_alert_level
    norm_num
  · unfold determine_alert_level
    norm_num

/-- C6: the run-level `avg_temperature` is the arithmetic mean of the
per-batch means, one term per batch regardless of record counts, and this
differs from the mean of all raw samples: segmenting `[0,0,10,10,10]` with
window 3 gives batch means `10/3` and `10`, aggregated average `20/3`,
while the raw-sample mean is `6`. -/
theorem c6_avg_temperature :
    (∀ (results : List BatchAnalysis) (s : RunSummary),
      analyze_data results = .ok s → s.avg_temperature = mean_of_batch_means results)
    ∧ analyze_data
        ((segment_windows 3 [0, 0, 10, 10, 10]).map fun p => mk_batch_analysis p.1 p.2)
      = .ok (mk_run_summary [mk_batch_analysis 1 [0, 0, 10], mk_batch_analysis 2 [10, 10]])
    ∧ (mk_run_summary [mk_batch_analysis 1 [0, 0, 10], mk_batch_analysis 2 [10, 10]]).avg_temperature
      = 20/3
    ∧ np_mean [0, 0, 10, 10, 10] = 6
    ∧ (20 : ℚ)/3 ≠ 6 := by
  have htr1 : analyze_trend [0, 0, 10] = Trend.rising := by
    unfold analyze_trend polyfit_slope
    norm_num [Finset.sum_range_succ]
  have htr2 : analyze_trend [10, 10] = Trend.plateau := by
    unfold analyze_trend polyfit_slope
    norm_num [Finset.sum_range_succ]
  have hseg : ((segment_windows 3 [0, 0, 10, 10, 10]).map fun p => mk_batch_analysis p.1 p.2)
      = [mk_batch_analysis 1 [0, 0, 10], mk_batch_analysis 2 [10, 10]] := rfl
  refine ⟨fun rs s h => analyze_data_avg rs s h, ?_, ?_, ?_, by norm_num⟩
  · rw [hseg]
    apply analyze_data_ok
    · simp
    · intro r hr
      rcases List.mem_cons.mp hr with hr1 | hr1
      · subst hr1
        rw [mk_batch_analysis_trend, htr1]
        decide
      · rw [List.mem_singleton] at hr1
        subst hr1
        rw [mk_batch_analysis_trend, htr2]
        decide
  · show ([mk_batch_analysis 1 [0, 0, 10], mk_batch_analysis 2 [10, 10]].map
        fun r => r.statistics.mean).sum / (2 : ℚ) = 20/3
    simp only [List.map_cons, List.map_nil, mk_batch_analysis_mean, List.sum_cons,
      List.sum_nil]
    norm_num [np_mean]
  · norm_num [np_mean]

/-- Witness for C6: the aggregator succeeds on the singleton list of the
batch `[20, 40]`, and its `avg_temperature` equals the mean of the batch
means. -/
theorem c6_avg_temperature_witness :
    (mk_run_summary [mk_batch_analysis 1 [20, 40]]).avg_temperature
      = mean_of_batch_means [mk_batch_analysis 1 [20, 40]] :=
  c6_avg_temperature.1 [mk_batch_analysis 1 [20, 40]]
    (mk_run_summary [mk_batch_analysis 1 [20, 40]])
    (analyze_data_ok _ (by simp) (by
      intro r hr
      rw [List.mem_singleton] at hr
      subst hr
      rw [mk_batch_analysis_trend]
      show analyze_trend [20, 40] ≠ Trend.insufficient
      unfold analyze_trend polyfit_slope
      norm_num [Finset.sum_range_succ]
      decide))

/-- C7: for every non-empty batch the computed statistics satisfy
`min <= median <= max` and `range = max - min`, and the stored dispersion
is the population variance (squared population standard deviation,
divisor `N`): on `[0, 2]` the population variance is `1` while the
sample variance (divisor `N - 1`) would be `2`. -/
theorem c7_statistics :
    (∀ vals : List ℚ, vals ≠ [] →
      (compute_statistics vals).min ≤ (compute_statistics vals).median
      ∧ (compute_statistics vals).median ≤ (compute_statistics vals).max
      ∧ (compute_statistics vals).range
          = (compute_statistics vals).max - (compute_statistics vals).min
      ∧ (compute_statistics vals).std_sq = pop_variance vals)
    ∧ pop_variance [0, 2] = 1
    ∧ sample_variance [0, 2] = 2
    ∧ pop_variance [0, 2] ≠ sample_variance [0, 2] := by
  refine ⟨?_, ?_, ?_, ?_⟩
  · intro vals hne
    obtain ⟨hlo, hhi⟩ := np_median_bounds vals hne
    exact ⟨hlo, hhi, rfl, rfl⟩
  · norm_num [pop_variance, np_mean]
  · norm_num [sample_variance, np_mean]
  · norm_num [pop_variance, sample_variance, np_mean]

/-- Witness for C7 at the batch `[3, 1, 2]`: min `1`, median `2`, max `3`,
range `2`, population variance `2/3`. -/
theorem c7_statistics_witness :
    (compute_statistics [3, 1, 2]).min ≤ (compute_statistics [3, 1, 2]).median
    ∧ (compute_statistics [3, 1, 2]).median ≤ (compute_statistics [3, 1, 2]).max
    ∧ (compute_statistics [3, 1, 2]).range
        = (compute_statistics [3, 1, 2]).max - (compute_statistics [3, 1, 2]).min
    ∧ (compute_statistics [3, 1, 2]).std_sq = pop_variance [3, 1, 2] :=
  c7_statistics.1 [3, 1, 2] (by simp)

/-! Least-squares helpers for the trend classifier. -/

theorem sum_range_id_rat (n : ℕ) :
    ∑ i in Finset.range n, (i : ℚ) = n * (n - 1) / 2 := by
  induction n with
  | zero => simp
  | succ m ih =>
    rw [Finset.sum_range_succ, ih]
    push_cast
    ring

theorem sum_range_sq_rat (n : ℕ) :
    ∑ i in Finset.range n, (i : ℚ) ^ 2 = n * (n - 1) * (2 * n - 1) / 6 := by
  induction n with
  | zero => simp
  | succ m ih =>
    rw [Finset.sum_range_succ, ih]
    push_cast
    ring

theorem polyfit_den_pos (n : ℕ) (hn : 2 ≤ n) :
    0 < (n : ℚ) * (∑ i in Finset.range n, (i : ℚ) ^ 2)
        - (∑ i in Finset.range n, (i : ℚ)) ^ 2 := by
  rw [sum_range_id_rat, sum_range_sq_rat]
  have h2 : (2 : ℚ) ≤ (n : ℚ) := by exact_mod_cast hn
  have hkey : (n : ℚ) * ((n : ℚ) * ((n : ℚ) - 1) * (2 * (n : ℚ) - 1) / 6)
      - ((n : ℚ) * ((n : ℚ) - 1) / 2) ^ 2
      = (n : ℚ) ^ 2 * ((n : ℚ) ^ 2 - 1) / 12 := by
    ring
  rw [hkey]
  have hn0 : (0 : ℚ) < (n : ℚ) := by linarith
  have hsq : (0 : ℚ) < (n : ℚ) ^ 2 := pow_pos hn0 2
  have hsq1 : (0 : ℚ) < (n : ℚ) ^ 2 - 1 := by nlinarith
  have := div_pos (mul_pos hsq hsq1) (by norm_num : (0 : ℚ) < 12)
  linarith

theorem polyfit_normal_equations (vals : List ℚ) (hlen : 2 ≤ vals.length) :
    (∑ i in Finset.range vals.length,
      (polyfit_slope vals * i + polyfit_intercept vals - vals.getD i 0)) = 0
    ∧ (∑ i in Finset.range vals.length,
      (i : ℚ) * (polyfit_slope vals * i + polyfit_intercept vals - vals.getD i 0)) = 0 := by
  have hden := polyfit_den_pos vals.length hlen
  have hdnz : (vals.length : ℚ) * (∑ i in Finset.range vals.length, (i : ℚ) ^ 2)
      - (∑ i in Finset.range vals.length, (i : ℚ)) ^ 2 ≠ 0 := ne_of_gt hden
  have hn0 : (vals.length : ℚ) ≠ 0 := by
    have : (2 : ℚ) ≤ (vals.length : ℚ) := by exact_mod_cast hlen
    linarith
  have hslope : polyfit_slope vals
        * ((vals.length : ℚ) * (∑ i in Finset.range vals.length, (i : ℚ) ^ 2)
            - (∑ i in Finset.range vals.length, (i : ℚ)) ^ 2)
      = (vals.length : ℚ) * (∑ i in Finset.range vals.length, (i : ℚ) * vals.getD i 0)
        - (∑ i in Finset.range vals.length, (i : ℚ))
          * (∑ i in Finset.range vals.length, vals.getD i 0) := by
    unfold polyfit_slope
    field_simp
  have hb : polyfit_intercept vals
      = ((∑ i in Finset.range vals.length, vals.getD i 0)
          - polyfit_slope vals * ∑ i in Finset.range vals.length, (i : ℚ))
        / (vals.length : ℚ) := rfl
  constructor
  · have e1 : ∑ i in Finset.range vals.length,
        (polyfit_slope vals * i + polyfit_intercept vals - vals.getD i 0)
        = polyfit_slope vals * (∑ i in Finset.range vals.length, (i : ℚ))
          + (vals.length : ℚ) * polyfit_intercept vals
          - ∑ i in Finset.range vals.length, vals.getD i 0 := by
      rw [Finset.sum_sub_distrib, Finset.sum_add_distrib, ← Finset.mul_sum,
        Finset.sum_const, Finset.card_range, nsmul_eq_mul]
    rw [e1, hb]
    field_simp
  · have e2 : ∑ i in Finset.range vals.length,
        (i : ℚ) * (polyfit_slope vals * i + polyfit_intercept vals - vals.getD i 0)
        = polyfit_slope vals * (∑ i in Finset.range vals.length, (i : ℚ) ^ 2)
          + polyfit_intercept vals * (∑ i in Finset.range vals.length, (i : ℚ))
          - ∑ i in Finset.range vals.length, (i : ℚ) * vals.getD i 0 := by
      have hterm : ∀ i ∈ Finset.range vals.length,
          (i : ℚ) * (polyfit_slope vals * i + polyfit_intercept vals - vals.getD i 0)
          = polyfit_slope vals * (i : ℚ) ^ 2 + polyfit_intercept vals * (i : ℚ)
            - (i : ℚ) * vals.getD i 0 := by
        intro i hi
        ring
      rw [Finset.sum_congr rfl hterm, Finset.sum_sub_distrib, Finset.sum_add_distrib,
        ← Finset.mul_sum, ← Finset.mul_sum]
    rw [e2, hb]
    set nq := (vals.length : ℚ) with hnq
    set sx := ∑ i in Finset.range vals.length, (i : ℚ) with hsx
    set sxx := ∑ i in Finset.range vals.length, (i : ℚ) ^ 2 with hsxx
    set sy := ∑ i in Finset.range vals.length, vals.getD i 0 with hsy
    set sxy := ∑ i in Finset.range vals.length, (i : ℚ) * vals.getD i 0 with hsxy
    field_simp
    linear_combination hslope

/-- C8: a batch with fewer than 2 samples gets trend Insufficient without a
fit; with at least 2 samples the classifier compares the degree-1
least-squares slope over indices `0..k-1` with `0.1`: Rising above `0.1`,
Falling below `-0.1`, Plateau in between.  The fitted line satisfies the
least-squares normal equations (residuals orthogonal to the constant and
index vectors).  The batch `[10, 20, 30, 40, 50]` has slope `10` and is
Rising. -/
theorem c8_trend :
    (∀ vals : List ℚ,
      (analyze_trend vals = .insufficient ↔ vals.length < 2)
      ∧ (2 ≤ vals.length →
          ((analyze_trend vals = .rising ↔ 1/10 < polyfit_slope vals)
          ∧ (analyze_trend vals = .falling ↔ polyfit_slope vals < -(1/10))
          ∧ (analyze_trend vals = .plateau
              ↔ -(1/10) ≤ polyfit_slope vals ∧ polyfit_slope vals ≤ 1/10)
          ∧ (∑ i in Finset.range vals.length,
              (polyfit_slope vals * i + polyfit_intercept vals - vals.getD i 0)) = 0
          ∧ (∑ i in Finset.range vals.length,
              (i : ℚ) * (polyfit_slope vals * i + polyfit_intercept vals - vals.getD i 0)) = 0)))
    ∧ polyfit_slope [10, 20, 30, 40, 50] = 10
    ∧ analyze_trend [10, 20, 30, 40, 50] = .rising := by
  refine ⟨?_, ?_, ?_⟩
  · intro vals
    constructor
    · unfold analyze_trend
      split_ifs with h1 h2 h3 <;> simp_all
    · intro hlen
      have hnot : ¬ vals.length < 2 := by omega
      refine ⟨?_, ?_, ?_, (polyfit_normal_equations vals hlen).1,
        (polyfit_normal_equations vals hlen).2⟩
      · constructor
        · intro h
          unfold analyze_trend at h
          rw [if_neg hnot] at h
          split_ifs at h with h2 h3
          exact h2
        · intro h
          unfold analyze_trend
          rw [if_neg hnot, if_pos h]
      · constructor
        · intro h
          unfold analyze_trend at h
          rw [if_neg hnot] at h
          split_ifs at h with h2 h3
          exact h3
        · intro h
          unfold analyze_trend
          rw [if_neg hnot, if_neg (by linarith), if_pos h]
      · constructor
        · intro h
          unfold analyze_trend at h
          rw [if_neg hnot] at h
          split_ifs at h with h2 h3
          exact ⟨not_lt.mp h3, not_lt.mp h2⟩
        · intro h
          unfold analyze_trend
          rw [if_neg hnot, if_neg (by linarith [h.2]), if_neg (by linarith [h.1])]
  · unfold polyfit_slope
    norm_num [Finset.sum_range_succ]
  · unfold analyze_trend polyfit_slope
    norm_num [Finset.sum_range_succ]

/-- Witness for C8 at the two-sample batch `[10, 30]` (slope `20`):
instantiates the general ladder characterization and the normal
equations with the length hypothesis discharged. -/
theorem c8_trend_witness :
    (analyze_trend [10, 30] = .insufficient ↔ ([10, 30] : List ℚ).length < 2)
    ∧ ((analyze_trend [10, 30] = .rising ↔ 1/10 < polyfit_slope [10, 30])
      ∧ (analyze_trend [10, 30] = .falling ↔ polyfit_slope [10, 30] < -(1/10))
      ∧ (analyze_trend [10, 30] = .plateau
          ↔ -(1/10) ≤ polyfit_slope [10, 30] ∧ polyfit_slope [10, 30] ≤ 1/10)
      ∧ (∑ i in Finset.range ([10, 30] : List ℚ).length,
          (polyfit_slope [10, 30] * i + polyfit_intercept [10, 30]
            - ([10, 30] : List ℚ).getD i 0)) = 0
      ∧ (∑ i in Finset.range ([10, 30] : List ℚ).length,
          (i : ℚ) * (polyfit_slope [10, 30] * i + polyfit_intercept [10, 30]
            - ([10, 30] : List ℚ).getD i 0)) = 0) :=
  ⟨(c8_trend.1 [10, 30]).1, (c8_trend.1 [10, 30]).2 (by decide)⟩

/-- C9: the stability classifier computes `cv = std / mean` only when
`mean > 0` and uses `cv = 0` otherwise, so no division by zero occurs and
every non-positive mean lands in VeryStable; for positive mean the bands
are `cv < 0.05` VeryStable, `< 0.1` Stable, `< 0.2` Moderate, else
Unstable.  In particular `mean = 0, std = 0` gives VeryStable. -/
theorem c9_stability :
    (∀ std_v mean_v : ℚ,
      (mean_v ≤ 0 → analyze_stability std_v mean_v = .very_stable)
      ∧ (0 < mean_v →
          ((analyze_stability std_v mean_v = .very_stable ↔ std_v / mean_v < 1/20)
          ∧ (analyze_stability std_v mean_v = .stable
              ↔ 1/20 ≤ std_v / mean_v ∧ std_v / mean_v < 1/10)
          ∧ (analyze_stability std_v mean_v = .moderate
              ↔ 1/10 ≤ std_v / mean_v ∧ std_v / mean_v < 1/5)
          ∧ (analyze_stability std_v mean_v = .unstable ↔ 1/5 ≤ std_v / mean_v))))
    ∧ analyze_stability 0 0 = .very_stable := by
  constructor
  · intro s m
    constructor
    · intro hm
      simp only [analyze_stability]
      rw [if_neg (not_lt.mpr hm)]
      norm_num
    · intro hm
      simp only [analyze_stability]
      rw [if_pos hm]
      refine ⟨?_, ?_, ?_, ?_⟩
      · constructor
        · intro h
          split_ifs at h with h1 h2 h3
          exact h1
        · intro h
          rw [if_pos h]
      · constructor
        · intro h
          split_ifs at h with h1 h2 h3
          exact ⟨not_lt.mp h1, h2⟩
        · intro h
          rw [if_neg (not_lt.mpr h.1), if_pos h.2]
      · constructor
        · intro h
          split_ifs at h with h1 h2 h3
          exact ⟨not_lt.mp h2, h3⟩
        · intro h
          rw [if_neg (not_lt.mpr (le_trans (by norm_num) h.1)),
            if_neg (not_lt.mpr h.1), if_pos h.2]
      · constructor
        · intro h
          split_ifs at h with h1 h2 h3
          exact not_lt.mp h3
        · intro h
          rw [if_neg (not_lt.mpr (le_trans (by norm_num) h)),
            if_neg (not_lt.mpr (le_trans (by norm_num) h)), if_neg (not_lt.mpr h)]
  · simp only [analyze_stability]
    norm_num

/-- Witness for C9: `std = 5, mean = 0` lands in VeryStable through the
zero-cv branch, and for `std = 1, mean = 10` (cv `= 1/10`) the band
characterization holds with the positive-mean hypothesis discharged. -/
theorem c9_stability_witness :
    analyze_stability 5 0 = .very_stable
    ∧ ((analyze_stability 1 10 = .very_stable ↔ (1 : ℚ) / 10 < 1/20)
      ∧ (analyze_stability 1 10 = .stable
          ↔ 1/20 ≤ (1 : ℚ) / 10 ∧ (1 : ℚ) / 10 < 1/10)
      ∧ (analyze_stability 1 10 = .moderate
          ↔ 1/10 ≤ (1 : ℚ) / 10 ∧ (1 : ℚ) / 10 < 1/5)
      ∧ (analyze_stability 1 10 = .unstable ↔ 1/5 ≤ (1 : ℚ) / 10)) :=
  ⟨(c9_stability.1 5 0).1 le_rfl, (c9_stability.1 1 10).2 (by norm_num)⟩

/-- C10: the label generator is a pure function of the statistics fields
`mean`, `std`, `range`, producing the composite
`temp_category ++ "_" ++ variability ++ "_" ++ range_category` from three
independent low-to-high threshold ladders; `mean = 50, std = 1, range = 3`
gives `"정상_안정_일정"`, the Korean spelling of Normal_Stable_Constant. -/
theorem c10_label :
    (∀ mean_temp std_temp temp_range : ℚ,
      generate_temperature_label mean_temp std_temp temp_range
        = (temp_category mean_temp).display ++ "_"
          ++ (variability_band std_temp).display ++ "_"
          ++ (range_category temp_range).display)
    ∧ (∀ m : ℚ, (temp_category m = .low ↔ m < 40)
        ∧ (temp_category m = .normal ↔ 40 ≤ m ∧ m < 70)
        ∧ (temp_category m = .high ↔ 70 ≤ m ∧ m < 85)
        ∧ (temp_category m = .overheat ↔ 85 ≤ m))
    ∧ (∀ s : ℚ, (variability_band s = .stable ↔ s < 2)
        ∧ (variability_band s = .moderate ↔ 2 ≤ s ∧ s < 5)
        ∧ (variability_band s = .unstable ↔ 5 ≤ s))
    ∧ (∀ r : ℚ, (range_category r = .constant ↔ r < 5)
        ∧ (range_category r = .varying ↔ 5 ≤ r ∧ r < 15)
        ∧ (range_category r = .volatile ↔ 15 ≤ r))
    ∧ generate_temperature_label 50 1 3 = "정상_안정_일정"
    ∧ "정상_안정_일정"
        = TempCategory.display .normal ++ "_" ++ Variability.display .stable
          ++ "_" ++ RangeCategory.display .constant := by
  refine ⟨?_, ?_, ?_, ?_, ?_, rfl⟩
  · intro m s r
    unfold generate_temperature_label temp_category variability_band range_category
    split_ifs <;> rfl
  · intro m
    refine ⟨⟨?_, ?_⟩, ⟨?_, ?_⟩, ⟨?_, ?_⟩, ⟨?_, ?_⟩⟩
    · intro h
      unfold temp_category at h
      split_ifs at h with h1 h2 h3
      exact h1
    · intro h
      unfold temp_category
      rw [if_pos h]
    · intro h
      unfold temp_category at h
      split_ifs at h with h1 h2 h3
      exact ⟨not_lt.mp h1, h2⟩
    · intro h
      unfold temp_category
      rw [if_neg (not_lt.mpr h.1), if_pos h.2]
    · intro h
      unfold temp_category at h
      split_ifs at h with h1 h2 h3
      exact ⟨not_lt.mp h2, h3⟩
    · intro h
      unfold temp_category
      rw [if_neg (not_lt.mpr (le_trans (by norm_num) h.1)),
        if_neg (not_lt.mpr h.1), if_pos h.2]
    · intro h
      unfold temp_category at h
      split_ifs at h with h1 h2 h3
      exact not_lt.mp h3
    · intro h
      unfold temp_category
      rw [if_neg (not_lt.mpr (le_trans (by norm_num) h)),
        if_neg (not_lt.mpr (le_trans (by norm_num) h)), if_neg (not_lt.mpr h)]
  · intro s
    refine ⟨⟨?_, ?_⟩, ⟨?_, ?_⟩, ⟨?_, ?_⟩⟩
    · intro h
      unfold variability_band at h
      split_ifs at h with h1 h2
      exact h1
    · intro h
      unfold variability_band
      rw [if_pos h]
    · intro h
      unfold variability_band at h
      split_ifs at h with h1 h2
      exact ⟨not_lt.mp h1, h2⟩
    · intro h
      unfold variability_band
      rw [if_neg (not_lt.mpr h.1), if_pos h.2]
    · intro h
      unfold variability_band at h
      split_ifs at h with h1 h2
      exact not_lt.mp h2
    · intro h
      unfold variability_band
      rw [if_neg (not_lt.mpr (le_trans (by norm_num) h)), if_neg (not_lt.mpr h)]
  · intro r
    refine ⟨⟨?_, ?_⟩, ⟨?_, ?_⟩, ⟨?_, ?_⟩⟩
    · intro h
      unfold range_category at h
      split_ifs at h with h1 h2
      exact h1
    · intro h
      unfold range_category
      rw [if_pos h]
    · intro h
      unfold range_category at h
      split_ifs at h with h1 h2
      exact ⟨not_lt.mp h1, h2⟩
    · intro h
      unfold range_category
      rw [if_neg (not_lt.mpr h.1), if_pos h.2]
    · intro h
      unfold range_category at h
      split_ifs at h with h1 h2
      exact not_lt.mp h2
    · intro h
      unfold range_category
      rw [if_neg (not_lt.mpr (le_trans (by norm_num) h)), if_neg (not_lt.mpr h)]
  · unfold generate_temperature_label
    norm_num
    rfl

/-! Bridging lemmas: the squared-threshold classifiers used inside the
pipeline agree with the direct embeddings of the source comparisons for
every nonnegative `std` (and `std = sqrt(variance)` is nonnegative). -/

theorem rat_sq_lt_sq_iff (a b : ℚ) (ha : 0 ≤ a) (hb : 0 ≤ b) :
    a ^ 2 < b ^ 2 ↔ a < b := by
  rw [sq, sq]
  exact (mul_self_lt_mul_self_iff ha hb).symm

theorem variability_sq_spec (std_v : ℚ) (hs : 0 ≤ std_v) :
    variability_band_sq (std_v ^ 2) = variability_band std_v := by
  unfold variability_band_sq variability_band
  have h2 : std_v ^ 2 < 4 ↔ std_v < 2 := by
    have h := rat_sq_lt_sq_iff std_v 2 hs (by norm_num)
    norm_num at h
    exact h
  have h5 : std_v ^ 2 < 25 ↔ std_v < 5 := by
    have h := rat_sq_lt_sq_iff std_v 5 hs (by norm_num)
    norm_num at h
    exact h
  simp only [h2, h5]

theorem analyze_stability_sq_spec (std_v mean_v : ℚ) (hs : 0 ≤ std_v) :
    analyze_stability_sq (std_v ^ 2) mean_v = analyze_stability std_v mean_v := by
  by_cases hm : mean_v > 0
  · have h20 : 400 * std_v ^ 2 < mean_v ^ 2 ↔ std_v / mean_v < 1/20 := by
      have hq : 400 * std_v ^ 2 < mean_v ^ 2 ↔ (20 * std_v) ^ 2 < mean_v ^ 2 := by
        constructor <;> intro h <;> nlinarith
      rw [hq, rat_sq_lt_sq_iff (20 * std_v) mean_v (by linarith) (by linarith),
        div_lt_iff₀ hm]
      constructor <;> intro h <;> linarith
    have h10 : 100 * std_v ^ 2 < mean_v ^ 2 ↔ std_v / mean_v < 1/10 := by
      have hq : 100 * std_v ^ 2 < mean_v ^ 2 ↔ (10 * std_v) ^ 2 < mean_v ^ 2 := by
        constructor <;> intro h <;> nlinarith
      rw [hq, rat_sq_lt_sq_iff (10 * std_v) mean_v (by linarith) (by linarith),
        div_lt_iff₀ hm]
      constructor <;> intro h <;> linarith
    have h5 : 25 * std_v ^ 2 < mean_v ^ 2 ↔ std_v / mean_v < 1/5 := by
      have hq : 25 * std_v ^ 2 < mean_v ^ 2 ↔ (5 * std_v) ^ 2 < mean_v ^ 2 := by
        constructor <;> intro h <;> nlinarith
      rw [hq, rat_sq_lt_sq_iff (5 * std_v) mean_v (by linarith) (by linarith),
        div_lt_iff₀ hm]
      constructor <;> intro h <;> linarith
    simp only [analyze_stability_sq, analyze_stability]
    rw [if_pos hm, if_pos hm]
    simp only [h20, h10, h5]
  · simp only [analyze_stability_sq, analyze_stability]
    rw [if_neg hm, if_neg hm]
    norm_num

theorem generate_temperature_label_decomp (m s r : ℚ) :
    generate_temperature_label m s r
      = (temp_category m).display ++ "_" ++ (variability_band s).display ++ "_"
        ++ (range_category r).display := by
  unfold generate_temperature_label temp_category variability_band range_category
  split_ifs <;> rfl

theorem generate_temperature_label_sq_spec (mean_temp std_v temp_range : ℚ)
    (hs : 0 ≤ std_v) :
    generate_temperature_label_sq mean_temp (std_v ^ 2) temp_range
      = generate_temperature_label mean_temp std_v temp_range := by
  rw [generate_temperature_label_decomp]
  unfold generate_temperature_label_sq
  rw [variability_sq_spec std_v hs]
